import Mathlib

/-!
# RetroArch autosave (autosave.c)

A shallow embedding of `autosave.c`: the session object `struct autosave`, the worker
`autosave_thread`, the lifecycle functions `autosave_new` / `autosave_free` and the bulk
hooks `lock_autosave` / `unlock_autosave`.

Conventions of the embedding.

* A byte is a `Fin 256`; a buffer is a `List Byte`.  The C code reads `bufsize` bytes from
  both buffers; the theorems assume both are `bufsize` long where the contents matter.
* A pointer field of the session is modelled by what it points to.  In particular
  `retro_buffer` holds the current contents of the caller-owned live buffer; when the caller
  writes to its buffer the field changes.
* A mutex (`slock_t`) is a `Bool`, `true` while it is held.  `slock_lock` on a held mutex does
  not return, which is modelled by `none`.  A pass of the worker is considered from the moment
  it gets the locks it asks for, so the theorems on a pass assume them free (`unlocked`).
* The worker is followed pass by pass: `autosave_thread_body` is one pass of the loop body and
  `autosave_thread_loop` runs the loop over a list of passes.  What other threads do is placed
  between passes (a store into the live buffer during the wait) or inside one (`quit` set
  after the test at the top of the loop).
* A slot of the registry holds a handle, the address of a session object in a `Heap`, or
  nothing; two slots may hold the same handle.
* What the outside world answers (allocation results, stdio results, what another thread does
  meanwhile) is an explicit argument: `Alloc`, `Stdio`, `Step`.
* Every function appends the calls it makes to `World.trace`, in program order.
-/

namespace Autosave

/-! ## Data model -/

abbrev Byte := Fin 256

/-- Modelled from the spec: the logging interface (`RARCH_LOG` / `RARCH_WARN`, declared in
general.h, which is not among the sources) takes three classes of message from
`autosave_thread`: informational autosave started (with path and interval), informational
change detected and saving, and the warning write failed, disk may be full. -/
inductive LogMsg
  /-- Line 99: the `RARCH_LOG` message Autosaving SRAM to path, will continue to check every
  interval seconds. -/
  | autosaving (path : String) (interval : Nat)
  /-- Line 104: the `RARCH_LOG` message SRAM changed, autosaving. -/
  | sram_changed
  /-- Line 111: the `RARCH_WARN` message Failed to autosave SRAM, disk might be full. -/
  | warn_failed
  deriving DecidableEq, Repr

/-- The calls made by the functions of `autosave.c`, recorded in program order. -/
inductive Event
  | calloc
  | malloc (size : Nat)
  | free
  /-- Line 155: `memcpy(handle->buffer, handle->retro_buffer, handle->bufsize)`. -/
  | memcpy_new
  | slock_new
  | scond_new
  | sthread_create
  /-- Call `autosave_lock(save)`: `slock_lock(save->lock)` has returned. -/
  | autosave_lock
  /-- Call `autosave_unlock(save)`: `slock_unlock(save->lock)`. -/
  | autosave_unlock
  /-- Line 81: `memcmp(save->buffer, save->retro_buffer, save->bufsize)`. -/
  | memcmp
  /-- Line 84: `memcpy(save->buffer, save->retro_buffer, save->bufsize)`. -/
  | memcpy
  /-- Line 90: `fopen` of `save->path` in mode wb, and whether it gave a stream. -/
  | fopen (path : String) (ok : Bool)
  /-- Line 106: `fwrite(save->buffer, 1, save->bufsize, file)`. -/
  | fwrite (count : Nat)
  | fflush
  | fclose
  /-- Call `slock_lock(cond_lock)` has returned. -/
  | cond_lock
  /-- Call `slock_unlock(cond_lock)`. -/
  | cond_unlock
  /-- Line 118: `scond_wait_timeout(save->cond, save->cond_lock, timeout_us)`. -/
  | scond_wait_timeout (timeout_us : Int)
  | scond_signal
  | sthread_join
  | slock_free
  | scond_free
  deriving DecidableEq, Repr

/-- The worker thread behind `handle->thread`: the local variable of `autosave_thread`. -/
structure sthread where
  first_log : Bool
  deriving DecidableEq, Repr

/-- The session object, `struct autosave` (lines 27-41). `cond` carries no state. -/
structure autosave where
  quit : Bool
  lock : Bool
  cond_lock : Bool
  thread : sthread
  buffer : List Byte
  retro_buffer : List Byte
  path : String
  bufsize : Nat
  interval : Nat
  deriving DecidableEq, Repr

/-- Everything outside the session object: the files by path, the log, the calls made. -/
structure World where
  fs : String → Option (List Byte)
  log : List LogMsg
  trace : List Event

/-- Append one call to the trace. -/
def World.emit (w : World) (e : Event) : World :=
  { w with trace := w.trace ++ [e] }

/-- Send one message to the logging interface. -/
def World.say (w : World) (msg : LogMsg) : World :=
  { w with log := w.log ++ [msg] }

/-- What the allocator answers during one `autosave_new`. -/
structure Alloc where
  calloc_ok : Bool
  malloc_ok : Bool
  /-- The indeterminate contents of a block fresh from `malloc`. -/
  malloc_fill : Nat → Byte

/-- What stdio answers during one pass of the worker loop. -/
structure Stdio where
  fopen_ok : Bool
  /-- Return value of `fwrite`: the number of bytes written. -/
  fwrite_ret : Nat
  /-- Return value of `fflush`, 0 on success. -/
  fflush_ret : Int
  /-- Return value of `fclose`, 0 on success. -/
  fclose_ret : Int
  deriving DecidableEq, Repr

/-- What surrounds one pass of the worker loop. -/
structure Step where
  stdio : Stdio
  /-- Another thread runs line 178 (`handle->quit = true`) during this pass, after the
  test of `quit` at the top of the loop. -/
  quit_late : Bool
  /-- What the owner of the live buffer stores into it while the worker waits. -/
  retro_write : Option (List Byte)
  deriving DecidableEq, Repr

/-! ## C library and rthreads -/

/-- C library `memcmp(a, b, n)`: zero when the first `n` bytes agree, otherwise the
difference of the first pair of bytes that differ. -/
def memcmp : List Byte → List Byte → Nat → Int
  | a :: as, b :: bs, n + 1 =>
      if a = b then memcmp as bs n else (a.val : Int) - (b.val : Int)
  | _, _, _ => 0

/-- C library `memcpy(dst, src, n)`: the first `n` bytes of the block `dst` are replaced by
those of `src`. The block keeps the length it was allocated with: a byte that C would write
past the end of `dst`, or read past the end of `src`, is not copied. -/
def memcpy : List Byte → List Byte → Nat → List Byte
  | _ :: ds, s :: ss, n + 1 => s :: memcpy ds ss n
  | dst, _, _ => dst

/-- C library `malloc(size)`: a block of `size` bytes of indeterminate contents, or NULL. -/
def malloc (al : Alloc) (size : Nat) : Option (List Byte) :=
  if al.malloc_ok then some ((List.range size).map al.malloc_fill) else none

/-- Modelled from the spec: `slock_new()` of rthreads (not among the sources) makes a
mutual-exclusion lock, which nobody holds at first. -/
def slock_new : Bool := false

/-- Modelled from the spec: `slock_lock` of rthreads (not among the sources) acquires the
lock: it returns with the lock held, and does not return while the lock is held. -/
def slock_lock (held : Bool) : Option Bool :=
  if held then none else some true

/-- Modelled from the spec: `slock_unlock` of rthreads (not among the sources) releases the
lock. -/
def slock_unlock (_held : Bool) : Bool := false

/-- Conversion to `long long`: two's complement on 64 bits. -/
def wrap_int64 (x : Int) : Int :=
  (x + 2 ^ 63) % 2 ^ 64 - 2 ^ 63

/-! ## autosave.c -/

/-- Lines 49-52. -/
def autosave_lock (handle : autosave) : Option autosave :=
  match slock_lock handle.lock with
  | none => none
  | some l => some { handle with lock := l }

/-- Lines 60-63. -/
def autosave_unlock (handle : autosave) : autosave :=
  { handle with lock := slock_unlock handle.lock }

/-- Lines 80-85: compare the snapshot with the live buffer under the buffer lock and bring
the snapshot up to date. Returns `differ` as well. -/
def autosave_thread_diff (save : autosave) (w : World) : Option (Bool × autosave × World) :=
  match autosave_lock save with
  | none => none
  | some save =>
    let w := w.emit .autosave_lock
    let differ := memcmp save.buffer save.retro_buffer save.bufsize != 0
    let w := w.emit .memcmp
    if differ then
      let save := { save with buffer := memcpy save.buffer save.retro_buffer save.bufsize }
      let w := w.emit .memcpy
      some (differ, autosave_unlock save, w.emit .autosave_unlock)
    else
      some (differ, autosave_unlock save, w.emit .autosave_unlock)

/-- Lines 90-112, run when `differ` holds: write the snapshot to `save->path`.
The file holds the bytes `fwrite` accepted. -/
def autosave_thread_save (sio : Stdio) (save : autosave) (w : World) : autosave × World :=
  let w := w.emit (.fopen save.path sio.fopen_ok)
  if sio.fopen_ok then
    let w := { w with fs := Function.update w.fs save.path (some []) }
    let failed := false
    let (save, w) :=
      if save.thread.first_log then
        ({ save with thread := { first_log := false } },
          w.say (.autosaving save.path save.interval))
      else
        (save, w.say .sram_changed)
    let written := min sio.fwrite_ret save.bufsize
    let w := { w with fs := Function.update w.fs save.path (some (save.buffer.take written)) }
    let w := w.emit (.fwrite save.bufsize)
    let failed := failed || (sio.fwrite_ret != save.bufsize)
    let w := w.emit .fflush
    let failed := failed || (sio.fflush_ret != 0)
    let w := w.emit .fclose
    let failed := failed || (sio.fclose_ret != 0)
    if failed then (save, w.say .warn_failed) else (save, w)
  else
    (save, w)

/-- Lines 115-121: under `cond_lock`, wait for the interval unless `quit` is set. The flag
is volatile and read again at line 117: `quit_late` tells whether another thread has set it
since the test at the top of the loop. -/
def autosave_thread_wait (quit_late : Bool) (save : autosave) (w : World) :
    Option (autosave × World) :=
  match slock_lock save.cond_lock with
  | none => none
  | some l =>
    let save := { save with cond_lock := l }
    let w := w.emit .cond_lock
    let save := { save with quit := save.quit || quit_late }
    let w :=
      if !save.quit then
        w.emit (.scond_wait_timeout (wrap_int64 ((save.interval : Int) * 1000000)))
      else w
    let save := { save with cond_lock := slock_unlock save.cond_lock }
    some (save, w.emit .cond_unlock)

/-- Lines 78-121: one pass of the body of `while (!save->quit)`. -/
def autosave_thread_body (e : Step) (save : autosave) (w : World) :
    Option (autosave × World) :=
  match autosave_thread_diff save w with
  | none => none
  | some (differ, save, w) =>
    let (save, w) := if differ then autosave_thread_save e.stdio save w else (save, w)
    autosave_thread_wait e.quit_late save w

/-- How far a run of the worker got. -/
inductive ThreadResult
  /-- The loop condition failed and `autosave_thread` returned. -/
  | returned (save : autosave) (w : World)
  /-- The passes supplied are used up and the loop is still going. -/
  | running (save : autosave) (w : World)
  /-- The worker is stuck in `slock_lock` on a mutex that is held. -/
  | blocked

/-- The owner of the live buffer stores into it. -/
def retro_store (b : Option (List Byte)) (save : autosave) : autosave :=
  match b with
  | none => save
  | some b => { save with retro_buffer := b }

/-- Lines 76-122: `while (!save->quit) { ... }`, one `Step` per pass. -/
def autosave_thread_loop : List Step → autosave → World → ThreadResult
  | steps, save, w =>
    if save.quit then .returned save w
    else
      match steps with
      | [] => .running save w
      | e :: es =>
        match autosave_thread_body e save w with
        | none => .blocked
        | some (save, w) => autosave_thread_loop es (retro_store e.retro_write save) w

/-- Lines 71-123: `autosave_thread`. -/
def autosave_thread (steps : List Step) (save : autosave) (w : World) : ThreadResult :=
  let save := { save with thread := { first_log := true } }
  autosave_thread_loop steps save w

/-- Lines 137-164: `autosave_new`. The thread it creates runs `autosave_thread`. -/
def autosave_new (al : Alloc) (path : String) (data : List Byte) (size interval : Nat)
    (w : World) : Option autosave × World :=
  let w := w.emit .calloc
  if al.calloc_ok then
    let handle : autosave :=
      { quit := false, lock := false, cond_lock := false, thread := { first_log := false },
        buffer := [], retro_buffer := [], path := "", bufsize := 0, interval := 0 }
    let handle := { handle with bufsize := size }
    let handle := { handle with interval := interval }
    let handle := { handle with path := path }
    let w := w.emit (.malloc size)
    let handle := { handle with retro_buffer := data }
    match malloc al size with
    | none => (none, w.emit .free)
    | some buf =>
      let handle := { handle with buffer := buf }
      let handle :=
        { handle with buffer := memcpy handle.buffer handle.retro_buffer handle.bufsize }
      let w := w.emit .memcpy_new
      let handle := { handle with lock := slock_new }
      let w := w.emit .slock_new
      let handle := { handle with cond_lock := slock_new }
      let w := w.emit .slock_new
      let w := w.emit .scond_new
      let w := w.emit .sthread_create
      (some handle, w)
  else
    (none, w)

/-- Lines 177-180 of `autosave_free`: set `quit` under `cond_lock` and signal. -/
def autosave_free_quit (handle : autosave) (w : World) : Option (autosave × World) :=
  match slock_lock handle.cond_lock with
  | none => none
  | some l =>
    let handle := { handle with cond_lock := l }
    let w := w.emit .cond_lock
    let handle := { handle with quit := true }
    let handle := { handle with cond_lock := slock_unlock handle.cond_lock }
    let w := w.emit .cond_unlock
    some (handle, w.emit .scond_signal)

/-- Lines 172-189: `autosave_free`. The session object is gone afterwards, so only the
world is returned. `sthread_join` lets the worker run until `autosave_thread` returns. -/
def autosave_free (handle : Option autosave) (w : World) : Option World :=
  match handle with
  | none => some w
  | some handle =>
    match autosave_free_quit handle w with
    | none => none
    | some (handle, w) =>
      match autosave_thread_loop [] handle w with
      | .returned _ w =>
        let w := w.emit .sthread_join
        let w := w.emit .slock_free
        let w := w.emit .slock_free
        let w := w.emit .scond_free
        let w := w.emit .free
        some (w.emit .free)
      | _ => none

/-- The value of `differ` (line 81) in a pass that starts from `save`. -/
def differ (save : autosave) : Bool :=
  memcmp save.buffer save.retro_buffer save.bufsize != 0

/-- Both buffers are `bufsize` bytes long. -/
def sized (save : autosave) : Prop :=
  save.buffer.length = save.bufsize ∧ save.retro_buffer.length = save.bufsize

/-- Neither mutex of the session is held. -/
def unlocked (save : autosave) : Prop :=
  save.lock = false ∧ save.cond_lock = false

instance (save : autosave) : Decidable (sized save) :=
  inferInstanceAs (Decidable (_ ∧ _))

instance (save : autosave) : Decidable (unlocked save) :=
  inferInstanceAs (Decidable (_ ∧ _))

/-- The calls of lines 115-121 in a pass that reaches them with `quit` equal to `q`. -/
def wait_calls (save : autosave) (q : Bool) : List Event :=
  if q = true then [.cond_lock, .cond_unlock]
  else [.cond_lock, .scond_wait_timeout (wrap_int64 ((save.interval : Int) * 1000000)),
    .cond_unlock]

/-- Whether the write of lines 106-109 is reported as failed. -/
def write_failed (sio : Stdio) (save : autosave) : Bool :=
  (sio.fwrite_ret != save.bufsize) || (sio.fflush_ret != 0) || (sio.fclose_ret != 0)

/-- Whether a call is one of the stdio calls of lines 90-109. -/
def Event.stdio : Event → Bool
  | .fopen _ _ => true
  | .fwrite _ => true
  | .fflush => true
  | .fclose => true
  | _ => false

/-- The stdio calls of a trace, in order. -/
def file_calls (tr : List Event) : List Event :=
  tr.filter Event.stdio

/-- Whether a call is the `fwrite` of line 106. -/
def Event.write : Event → Bool
  | .fwrite _ => true
  | _ => false

/-- The number of `fwrite` calls in a trace. -/
def writes (tr : List Event) : Nat :=
  tr.countP Event.write

/-- Whether a call is the `fopen` of line 90. -/
def Event.open_ : Event → Bool
  | .fopen _ _ => true
  | _ => false

/-- The number of `fopen` calls in a trace. -/
def opens (tr : List Event) : Nat :=
  tr.countP Event.open_

/-- Whether a call reads or writes the snapshot `buffer`: the copy of line 155, the compare
of line 81, the copy-over of line 84 and the `fwrite` of line 106. -/
def Event.snapshot : Event → Bool
  | .memcpy_new => true
  | .memcmp => true
  | .memcpy => true
  | .fwrite _ => true
  | _ => false

/-- The compare of line 81 and the copy-over of line 84. -/
def Event.compare_copy : Event → Bool
  | .memcmp => true
  | .memcpy => true
  | _ => false

/-- The copy of line 155 and the `fwrite` of line 106. -/
def Event.copy_new_write : Event → Bool
  | .memcpy_new => true
  | .fwrite _ => true
  | _ => false

/-- Whether the buffer lock is held after a call, given whether it was held before. -/
def held_after (held : Bool) : Event → Bool
  | .autosave_lock => true
  | .autosave_unlock => false
  | _ => held

/-- Walk a trace from a lock state `held`, following `autosave_lock` / `autosave_unlock`.
The result is `none` as soon as a call selected by `p` is made while the buffer lock is not
in the state `want`, and otherwise the lock state at the end. -/
def lock_scan (p : Event → Bool) (want : Bool) : Bool → List Event → Option Bool
  | held, [] => some held
  | held, ev :: tr =>
    if p ev && (held != want) then none
    else lock_scan p want (held_after held ev) tr

/-- A world with no files, an empty log and an empty trace. -/
def w0 : World := { fs := fun _ => none, log := [], trace := [] }

/-- An allocator that succeeds. -/
def al0 : Alloc := { calloc_ok := true, malloc_ok := true, malloc_fill := fun _ => 7 }

/-- The path of the examples. -/
def path0 : String := "P"

/-- Eight zero bytes. -/
def zeros8 : List Byte := [0, 0, 0, 0, 0, 0, 0, 0]

/-- Eight zero bytes with byte 3 set to 0xFF. -/
def mutated8 : List Byte := [0, 0, 0, 0xFF, 0, 0, 0, 0]

/-- A pass in which every stdio call succeeds on 8 bytes and nothing else happens. -/
def step_ok : Step :=
  { stdio := { fopen_ok := true, fwrite_ret := 8, fflush_ret := 0, fclose_ret := 0 },
    quit_late := false, retro_write := none }

/-- A pass in which `fopen` fails. -/
def step_noopen : Step :=
  { stdio := { fopen_ok := false, fwrite_ret := 0, fflush_ret := 0, fclose_ret := 0 },
    quit_late := false, retro_write := none }

/-- A session of size 8 whose snapshot equals its all-zero live buffer. -/
def sess0 : autosave :=
  { quit := false, lock := false, cond_lock := false, thread := { first_log := true },
    buffer := zeros8, retro_buffer := zeros8, path := path0, bufsize := 8, interval := 1 }

/-- The session `sess0` after byte 3 of the live buffer was set to 0xFF. -/
def sess1 : autosave := { sess0 with retro_buffer := mutated8 }

/-- The timeouts of the `scond_wait_timeout` calls of a trace, in order. -/
def waits : List Event → List Int
  | [] => []
  | .scond_wait_timeout t :: tr => t :: waits tr
  | _ :: tr => waits tr

/-- A pass with a short write: `fwrite` takes 5 of the 8 bytes. -/
def step_short : Step :=
  { stdio := { fopen_ok := true, fwrite_ret := 5, fflush_ret := 0, fclose_ret := 0 },
    quit_late := false, retro_write := none }

/-- The session `sess1` (live buffer changed) with `quit` set. -/
def sess1_quit : autosave := { sess1 with quit := true }

theorem memcmp_eq_zero_iff (a b : List Byte) (n : Nat) (ha : n ≤ a.length)
    (hb : n ≤ b.length) : memcmp a b n = 0 ↔ a.take n = b.take n := by
  induction a generalizing b n with
  | nil =>
    have : n = 0 := by simpa using ha
    subst this
    simp [memcmp]
  | cons x xs ih =>
    cases n with
    | zero => simp [memcmp]
    | succ n =>
      cases b with
      | nil => simp at hb
      | cons y ys =>
        simp only [memcmp, List.take_succ_cons, List.cons.injEq]
        by_cases hxy : x = y
        · simp only [hxy, if_true, true_and]
          exact ih ys n (by simpa using ha) (by simpa using hb)
        · simp only [hxy, if_false, false_and, iff_false]
          intro h
          apply hxy
          apply Fin.ext
          omega

theorem differ_iff (save : autosave) (h : sized save) :
    differ save = true ↔ save.buffer ≠ save.retro_buffer := by
  obtain ⟨h1, h2⟩ := h
  have := memcmp_eq_zero_iff save.buffer save.retro_buffer save.bufsize (by omega) (by omega)
  rw [← h1] at this
  simp only [List.take_length] at this
  rw [h1] at this
  have h3 : List.take save.bufsize save.retro_buffer = save.retro_buffer := by
    rw [← h2]; exact List.take_length _
  rw [h3] at this
  simp only [differ, bne_iff_ne, ne_eq]
  exact not_congr this

theorem memcpy_length (dst src : List Byte) (n : Nat) :
    (memcpy dst src n).length = dst.length := by
  induction dst generalizing src n with
  | nil => simp [memcpy]
  | cons d ds ih =>
    cases src with
    | nil => simp [memcpy]
    | cons x xs =>
      cases n with
      | zero => simp [memcpy]
      | succ n => simp [memcpy, ih]

theorem memcpy_take (dst src : List Byte) (n : Nat) (hd : dst.length = n)
    (hs : n ≤ src.length) : memcpy dst src n = src.take n := by
  induction dst generalizing src n with
  | nil =>
    have : n = 0 := by simpa using hd.symm
    subst this
    simp [memcpy]
  | cons d ds ih =>
    cases n with
    | zero => simp at hd
    | succ n =>
      cases src with
      | nil => simp at hs
      | cons x xs =>
        simp only [memcpy, List.take_succ_cons, List.cons.injEq, true_and]
        exact ih xs n (by simpa using hd) (by simpa using hs)

theorem memcpy_sized (dst src : List Byte) (n : Nat) (hd : dst.length = n)
    (hs : src.length = n) : memcpy dst src n = src := by
  rw [memcpy_take dst src n hd (by omega), ← hs, List.take_length]

theorem diff_spec (save : autosave) (w : World) (h : save.lock = false) :
    autosave_thread_diff save w = some (differ save,
      { save with buffer := (if differ save = true
          then memcpy save.buffer save.retro_buffer save.bufsize else save.buffer) },
      { w with trace := w.trace ++ (if differ save = true then
          [.autosave_lock, .memcmp, .memcpy, .autosave_unlock]
          else [.autosave_lock, .memcmp, .autosave_unlock]) }) := by
  obtain ⟨quit, lock, cond_lock, thread, buffer, retro_buffer, path, bufsize, interval⟩ := save
  simp only at h
  subst h
  simp only [autosave_thread_diff, autosave_lock, slock_lock, autosave_unlock, slock_unlock,
    World.emit, differ]
  split
  · simp_all
  · rename_i heq
    simp only [Bool.false_eq_true, if_false, Option.some.injEq] at heq
    subst heq
    by_cases hm : memcmp buffer retro_buffer bufsize = 0 <;> simp [hm]

theorem wait_spec (q : Bool) (save : autosave) (w : World) (h : save.cond_lock = false) :
    autosave_thread_wait q save w = some ({ save with quit := save.quit || q },
      { w with trace := w.trace ++ (if (save.quit || q) = true then [.cond_lock, .cond_unlock]
          else [.cond_lock,
            .scond_wait_timeout (wrap_int64 ((save.interval : Int) * 1000000)),
            .cond_unlock]) }) := by
  cases save
  simp only at h
  subst h
  cases q <;> rename_i quit _ _ _ _ _ _ _ <;> cases quit <;>
    simp [autosave_thread_wait, slock_lock, slock_unlock, World.emit]

theorem save_fst (sio : Stdio) (save : autosave) (w : World) :
    (autosave_thread_save sio save w).1 =
      { save with thread := { first_log := save.thread.first_log && !sio.fopen_ok } } := by
  obtain ⟨quit, lock, cond_lock, ⟨fl⟩, buffer, retro_buffer, path, bufsize, interval⟩ := save
  simp only [autosave_thread_save]
  cases hfo : sio.fopen_ok <;> cases fl <;> simp <;> split <;> rfl

theorem save_trace (sio : Stdio) (save : autosave) (w : World) :
    (autosave_thread_save sio save w).2.trace = w.trace ++
      (if sio.fopen_ok = true then
        [.fopen save.path true, .fwrite save.bufsize, .fflush, .fclose]
      else [.fopen save.path false]) := by
  simp only [autosave_thread_save, World.emit, World.say]
  cases hfo : sio.fopen_ok <;> cases save.thread.first_log <;> simp <;> split <;> simp

theorem save_log (sio : Stdio) (save : autosave) (w : World) :
    (autosave_thread_save sio save w).2.log = w.log ++
      (if sio.fopen_ok = true then
        [if save.thread.first_log = true then LogMsg.autosaving save.path save.interval
          else LogMsg.sram_changed] ++
        (if write_failed sio save = true then [LogMsg.warn_failed] else [])
      else []) := by
  simp only [autosave_thread_save, World.emit, World.say, write_failed]
  cases hfo : sio.fopen_ok <;> cases save.thread.first_log <;> simp <;> split <;> simp_all

theorem save_fs (sio : Stdio) (save : autosave) (w : World) :
    (autosave_thread_save sio save w).2.fs =
      (if sio.fopen_ok = true then
        Function.update w.fs save.path (some (save.buffer.take (min sio.fwrite_ret save.bufsize)))
      else w.fs) := by
  simp only [autosave_thread_save, World.emit, World.say]
  cases hfo : sio.fopen_ok <;> cases save.thread.first_log <;> simp <;> split <;> simp

theorem body_same (e : Step) (save : autosave) (w : World) (h : unlocked save)
    (hd : differ save = false) :
    autosave_thread_body e save w = some ({ save with quit := save.quit || e.quit_late },
      { w with trace := w.trace ++ [.autosave_lock, .memcmp, .autosave_unlock] ++
          wait_calls save (save.quit || e.quit_late) }) := by
  simp only [autosave_thread_body, diff_spec save w h.1, hd]
  simp only [Bool.false_eq_true, if_false]
  rw [wait_spec _ _ _ (by simpa using h.2)]
  simp only [wait_calls]

theorem body_differ (e : Step) (save : autosave) (w : World) (h : unlocked save)
    (hd : differ save = true) :
    ∃ save1 w1, autosave_thread_body e save w = some (save1, w1) ∧
      save1 = { save with
        quit := save.quit || e.quit_late
        buffer := memcpy save.buffer save.retro_buffer save.bufsize
        thread := { first_log := save.thread.first_log && !e.stdio.fopen_ok } } ∧
      w1.trace = w.trace ++ [.autosave_lock, .memcmp, .memcpy, .autosave_unlock] ++
        (if e.stdio.fopen_ok = true then
          [.fopen save.path true, .fwrite save.bufsize, .fflush, .fclose]
        else [.fopen save.path false]) ++ wait_calls save (save.quit || e.quit_late) ∧
      w1.log = w.log ++
        (if e.stdio.fopen_ok = true then
          [if save.thread.first_log = true then LogMsg.autosaving save.path save.interval
            else LogMsg.sram_changed] ++
          (if write_failed e.stdio save = true then [LogMsg.warn_failed] else [])
        else []) ∧
      w1.fs = (if e.stdio.fopen_ok = true then
        Function.update w.fs save.path (some ((memcpy save.buffer save.retro_buffer
          save.bufsize).take (min e.stdio.fwrite_ret save.bufsize)))
        else w.fs) := by
  simp only [autosave_thread_body, diff_spec save w h.1, hd, if_true]
  generalize hs0 : ({ save with buffer := memcpy save.buffer save.retro_buffer save.bufsize } :
    autosave) = s0
  generalize hw0 : ({ w with trace := w.trace ++
    [Event.autosave_lock, Event.memcmp, Event.memcpy, Event.autosave_unlock] } : World) = w0
  have h1 := save_fst e.stdio s0 w0
  have h2 := save_trace e.stdio s0 w0
  have h3 := save_log e.stdio s0 w0
  have h4 := save_fs e.stdio s0 w0
  generalize autosave_thread_save e.stdio s0 w0 = r at h1 h2 h3 h4
  obtain ⟨s1, w1⟩ := r
  simp only at h1 h2 h3 h4
  have hc : s1.cond_lock = false := by
    rw [h1, ← hs0]; exact h.2
  rw [wait_spec _ _ _ hc]
  refine ⟨_, _, rfl, ?_, ?_, ?_, ?_⟩
  · rw [h1, ← hs0]
  · simp only [h2, ← hw0, wait_calls, h1, ← hs0]
  · simp only [h3, ← hw0, ← hs0, write_failed]
  · simp only [h4, ← hw0, ← hs0]

/-- Induction over the passes of the worker loop. `P k` holds after `k` more passes; the
loop either returns because `quit` is set, or uses up all the passes supplied. -/
theorem loop_induct (P : Nat → autosave → World → Prop) (steps : List Step)
    (hbody : ∀ e ∈ steps, ∀ k save w, P k save w → save.quit = false →
      ∃ save1 w1, autosave_thread_body e save w = some (save1, w1) ∧
        P (k + 1) (retro_store e.retro_write save1) w1) :
    ∀ k save w, P k save w → ∃ j save1 w1, j ≤ steps.length ∧ P (k + j) save1 w1 ∧
      ((autosave_thread_loop steps save w = .returned save1 w1 ∧ save1.quit = true) ∨
       (autosave_thread_loop steps save w = .running save1 w1 ∧ j = steps.length ∧
         save1.quit = false)) := by
  induction steps with
  | nil =>
    intro k save w hP
    refine ⟨0, save, w, le_refl _, hP, ?_⟩
    unfold autosave_thread_loop
    cases hq : save.quit <;> simp
  | cons e es ih =>
    intro k save w hP
    cases hq : save.quit with
    | true =>
      refine ⟨0, save, w, Nat.zero_le _, hP, Or.inl ⟨?_, hq⟩⟩
      unfold autosave_thread_loop
      simp [hq]
    | false =>
      obtain ⟨s1, w1, hb, hP1⟩ := hbody e (List.mem_cons_self _ _) k save w hP hq
      obtain ⟨j, s2, w2, hj, hP2, hres⟩ :=
        ih (fun e' he' => hbody e' (List.mem_cons_of_mem _ he')) (k + 1) _ _ hP1
      refine ⟨j + 1, s2, w2, by simpa using hj, by rwa [show k + (j + 1) = k + 1 + j by omega],
        ?_⟩
      have hl : autosave_thread_loop (e :: es) save w =
          autosave_thread_loop es (retro_store e.retro_write s1) w1 := by
        rw [autosave_thread_loop]
        simp [hq, hb]
      rw [hl]
      rcases hres with ⟨h1, h2⟩ | ⟨h1, h2, h3⟩
      · exact Or.inl ⟨h1, h2⟩
      · exact Or.inr ⟨h1, by simp [h2], h3⟩

theorem file_calls_append (a b : List Event) :
    file_calls (a ++ b) = file_calls a ++ file_calls b := by
  simp [file_calls]

theorem writes_append (a b : List Event) : writes (a ++ b) = writes a + writes b := by
  simp [writes]

theorem opens_append (a b : List Event) : opens (a ++ b) = opens a + opens b := by
  simp [opens]

theorem file_calls_wait (save : autosave) (q : Bool) : file_calls (wait_calls save q) = [] := by
  cases q <;> simp [file_calls, wait_calls, Event.stdio]

theorem writes_wait (save : autosave) (q : Bool) : writes (wait_calls save q) = 0 := by
  cases q <;> simp [writes, wait_calls, Event.write]

theorem opens_wait (save : autosave) (q : Bool) : opens (wait_calls save q) = 0 := by
  cases q <;> simp [opens, wait_calls, Event.open_]

theorem count_memcmp_wait (save : autosave) (q : Bool) :
    (wait_calls save q).count Event.memcmp = 0 := by
  cases q <;> simp [wait_calls]

theorem count_memcpy_wait (save : autosave) (q : Bool) :
    (wait_calls save q).count Event.memcpy = 0 := by
  cases q <;> simp [wait_calls]

theorem new_ok (al : Alloc) (path : String) (data : List Byte) (size interval : Nat)
    (w : World) (hc : al.calloc_ok = true) (hm : al.malloc_ok = true) :
    autosave_new al path data size interval w =
      (some { quit := false, lock := false, cond_lock := false,
              thread := { first_log := false },
              buffer := memcpy ((List.range size).map al.malloc_fill) data size,
              retro_buffer := data, path := path, bufsize := size, interval := interval },
       { w with trace := w.trace ++ [.calloc, .malloc size, .memcpy_new, .slock_new,
           .slock_new, .scond_new, .sthread_create] }) := by
  simp [autosave_new, malloc, hc, hm, World.emit, slock_new]

theorem new_null (al : Alloc) (path : String) (data : List Byte) (size interval : Nat)
    (w : World) (h : al.calloc_ok = false ∨ al.malloc_ok = false) :
    (autosave_new al path data size interval w).1 = none := by
  cases hc : al.calloc_ok <;> cases hm : al.malloc_ok <;>
    simp_all [autosave_new, malloc]

/-- On a session whose `cond_lock` is free, `autosave_free` goes through all of lines
177-188. -/
theorem free_session (handle : autosave) (w : World) (h : handle.cond_lock = false) :
    autosave_free (some handle) w = some { w with trace := w.trace ++
      [.cond_lock, .cond_unlock, .scond_signal, .sthread_join, .slock_free, .slock_free,
        .scond_free, .free, .free] } := by
  simp only [autosave_free, autosave_free_quit, slock_lock, h, Bool.false_eq_true, if_false]
  rw [autosave_thread_loop]
  simp [World.emit]

/-- A pass that finds no difference, with no store into the live buffer afterwards, keeps
everything that matters for the next pass. -/
theorem quiet_loop (steps : List Step) (b : List Byte) (save : autosave) (w : World)
    (hu : unlocked save) (hb : save.buffer = b) (hr : save.retro_buffer = b)
    (hl : b.length = save.bufsize) (hkeep : ∀ e ∈ steps, e.retro_write = none) :
    ∃ save1 w1,
      (autosave_thread_loop steps save w = .returned save1 w1 ∨
        autosave_thread_loop steps save w = .running save1 w1) ∧
      save1.buffer = b ∧ save1.retro_buffer = b ∧ w1.fs = w.fs ∧ w1.log = w.log ∧
      file_calls w1.trace = file_calls w.trace ∧
      w1.trace.count .memcpy = w.trace.count .memcpy ∧
      (save.quit = false → (∀ e ∈ steps, e.quit_late = false) →
        autosave_thread_loop steps save w = .running save1 w1 ∧
        w1.trace.count .memcmp = w.trace.count .memcmp + steps.length) := by
  have key := loop_induct
    (fun k s v => unlocked s ∧ s.buffer = b ∧ s.retro_buffer = b ∧ s.bufsize = save.bufsize ∧
      v.fs = w.fs ∧ v.log = w.log ∧ file_calls v.trace = file_calls w.trace ∧
      v.trace.count .memcpy = w.trace.count .memcpy ∧
      v.trace.count .memcmp = w.trace.count .memcmp + k ∧
      (save.quit = false → (∀ e ∈ steps, e.quit_late = false) → s.quit = false)) steps
    (by
      intro e he k s v ⟨h1, h2, h3, h4, h5, h6, h7, h8, h9, h10⟩ hq
      have hd : differ s = false := by
        have := (differ_iff s ⟨by rw [h2, hl, h4], by rw [h3, hl, h4]⟩).not
        simpa [h2, h3] using this
      refine ⟨_, _, body_same e s v h1 hd, ?_⟩
      rw [hkeep e he]
      simp only [retro_store]
      refine ⟨h1, h2, h3, h4, h5, h6, ?_, ?_, ?_, ?_⟩
      · simp only [file_calls_append, file_calls_wait, h7]
        simp [file_calls, Event.stdio]
      · simp [List.count_append, count_memcpy_wait, h8]
      · simp [List.count_append, count_memcmp_wait, h9, Nat.add_assoc]
      · intro ha hb
        simp [hq, hb e he])
    0 save w ⟨hu, hb, hr, rfl, rfl, rfl, rfl, rfl, rfl, fun _ _ => by assumption⟩
  obtain ⟨j, s1, w1, hj, ⟨h1, h2, h3, h4, h5, h6, h7, h8, h9, h10⟩, hres⟩ := key
  refine ⟨s1, w1, ?_, h2, h3, h5, h6, h7, h8, ?_⟩
  · rcases hres with ⟨h, _⟩ | ⟨h, _, _⟩
    · exact Or.inl h
    · exact Or.inr h
  · intro ha hb
    rcases hres with ⟨_, hq⟩ | ⟨h, hjl, _⟩
    · rw [h10 ha hb] at hq
      cases hq
    · exact ⟨h, by rw [h9, hjl]; simp⟩

theorem writes_file_calls (tr : List Event) : writes (file_calls tr) = writes tr := by
  induction tr with
  | nil => rfl
  | cons ev tr ih =>
    cases ev <;> simp_all [writes, file_calls, Event.stdio, Event.write, List.filter_cons]

theorem waits_append (a b : List Event) : waits (a ++ b) = waits a ++ waits b := by
  induction a with
  | nil => rfl
  | cons ev tr ih => cases ev <;> simp [waits, ih]

theorem waits_wait_calls (save : autosave) (q : Bool) :
    waits (wait_calls save q) =
      if q = false then [wrap_int64 ((save.interval : Int) * 1000000)] else [] := by
  cases q <;> simp [wait_calls, waits]

theorem wrap_int64_interval (n : Nat) (h : n < 2 ^ 32) :
    wrap_int64 ((n : Int) * 1000000) = (n : Int) * 1000000 := by
  simp only [wrap_int64]
  norm_num at h ⊢
  omega

theorem diff_quit (save : autosave) (w : World) (d : Bool) (save1 : autosave) (w1 : World)
    (h : autosave_thread_diff save w = some (d, save1, w1)) : save1.quit = save.quit := by
  simp only [autosave_thread_diff, autosave_lock, slock_lock, autosave_unlock] at h
  cases hl : save.lock <;> simp only [hl, Bool.false_eq_true, if_false, if_true] at h
  · split at h
    · simp only [Option.some.injEq, Prod.mk.injEq] at h
      rw [← h.2.1]
    · simp only [Option.some.injEq, Prod.mk.injEq] at h
      rw [← h.2.1]
  · cases h

theorem wait_quit (q : Bool) (save : autosave) (w : World) (save1 : autosave) (w1 : World)
    (h : autosave_thread_wait q save w = some (save1, w1)) :
    save1.quit = (save.quit || q) := by
  simp only [autosave_thread_wait, slock_lock] at h
  cases hl : save.cond_lock <;> simp only [hl, Bool.false_eq_true, if_false, if_true] at h
  · simp only [Option.some.injEq, Prod.mk.injEq] at h
    rw [← h.1]
  · cases h

theorem body_quit (e : Step) (save : autosave) (w : World) (save1 : autosave) (w1 : World)
    (h : autosave_thread_body e save w = some (save1, w1)) :
    save1.quit = (save.quit || e.quit_late) := by
  simp only [autosave_thread_body] at h
  cases hd : autosave_thread_diff save w with
  | none => simp [hd] at h
  | some r =>
    obtain ⟨d, s0, v0⟩ := r
    simp only [hd] at h
    have h0 := diff_quit save w d s0 v0 hd
    cases d
    · simp only [Bool.false_eq_true, if_false] at h
      rw [wait_quit _ _ _ _ _ h, h0]
    · simp only [if_true] at h
      have h1 := save_fst e.stdio s0 v0
      generalize autosave_thread_save e.stdio s0 v0 = r at h h1
      obtain ⟨s1, v1⟩ := r
      simp only at h h1
      rw [wait_quit _ _ _ _ _ h, h1, h0]

theorem lock_scan_append (p : Event → Bool) (want : Bool) (a b : List Event) (held : Bool) :
    lock_scan p want held (a ++ b) =
      (lock_scan p want held a).bind (fun h => lock_scan p want h b) := by
  induction a generalizing held with
  | nil => rfl
  | cons ev tr ih =>
    simp only [List.cons_append, lock_scan]
    split
    · rfl
    · exact ih _

theorem retro_store_unlocked (b : Option (List Byte)) (save : autosave) (h : unlocked save) :
    unlocked (retro_store b save) := by
  cases b <;> exact h

/-- The calls of one pass keep the compare and the copy-over inside the buffer lock, and the
`fwrite` outside of it. -/
theorem pass_scan (e : Step) (save : autosave) (w : World) (hu : unlocked save) :
    ∃ save1 w1 piece, autosave_thread_body e save w = some (save1, w1) ∧ unlocked save1 ∧
      w1.trace = w.trace ++ piece ∧
      lock_scan Event.compare_copy true false piece = some false ∧
      lock_scan Event.copy_new_write false false piece = some false := by
  cases hd : differ save with
  | false =>
    refine ⟨_, _, _, body_same e save w hu hd, hu, by simp only [List.append_assoc]; rfl,
      ?_, ?_⟩ <;>
    cases (save.quit || e.quit_late) <;>
    simp [lock_scan, wait_calls, held_after, Event.compare_copy, Event.copy_new_write]
  | true =>
    obtain ⟨s1, w1, hbody, hs1, htr, -, -⟩ := body_differ e save w hu hd
    refine ⟨s1, w1, _, hbody, by rw [hs1]; exact hu,
      by rw [htr]; simp only [List.append_assoc]; rfl, ?_, ?_⟩ <;>
    cases (save.quit || e.quit_late) <;> cases e.stdio.fopen_ok <;>
    simp [lock_scan, wait_calls, held_after, Event.compare_copy, Event.copy_new_write]

/-- C1: a session made by `autosave_new` whose live buffer keeps the contents it had at
creation never opens or writes the file, however many passes the worker makes: every pass
compares equal, no copy-over happens, snapshot and live buffer stay equal, and the files and
the log are as before the session was created. When nothing requests `quit`, all the passes
supplied are made, each with one compare. -/
theorem C1_unchanged_buffer_never_written (al : Alloc) (path : String) (data : List Byte)
    (size interval : Nat) (w : World) (steps : List Step)
    (hc : al.calloc_ok = true) (hm : al.malloc_ok = true) (hlen : data.length = size)
    (hkeep : ∀ e ∈ steps, e.retro_write = none) :
    ∃ save w1, autosave_new al path data size interval w = (some save, w1) ∧
      ∃ save2 w2,
        (autosave_thread steps save w1 = .returned save2 w2 ∨
          autosave_thread steps save w1 = .running save2 w2) ∧
        save2.buffer = data ∧ save2.retro_buffer = data ∧
        w2.fs = w.fs ∧ w2.log = w.log ∧
        file_calls w2.trace = file_calls w.trace ∧
        w2.trace.count .memcpy = w.trace.count .memcpy ∧
        ((∀ e ∈ steps, e.quit_late = false) →
          autosave_thread steps save w1 = .running save2 w2 ∧
          w2.trace.count .memcmp = w.trace.count .memcmp + steps.length) := by
  refine ⟨_, _, new_ok al path data size interval w hc hm, ?_⟩
  have hcopy : memcpy ((List.range size).map al.malloc_fill) data size = data :=
    memcpy_sized _ _ _ (by simp) hlen
  rw [hcopy]
  simp only [autosave_thread]
  obtain ⟨s2, w2, hres, h1, h2, h3, h4, h5, h6, h7⟩ := quiet_loop steps data
    { quit := false, lock := false, cond_lock := false, thread := { first_log := true },
      buffer := data, retro_buffer := data, path := path, bufsize := size,
      interval := interval }
    { w with trace := w.trace ++ [.calloc, .malloc size, .memcpy_new, .slock_new,
        .slock_new, .scond_new, .sthread_create] }
    ⟨rfl, rfl⟩ rfl rfl hlen hkeep
  refine ⟨s2, w2, hres, h1, h2, h3, h4, ?_, ?_, ?_⟩
  · rw [h5]; simp [file_calls, Event.stdio]
  · rw [h6]; simp
  · intro hq
    obtain ⟨ha, hb⟩ := h7 rfl hq
    exact ⟨ha, by rw [hb]; simp⟩

/-- Witness of C1: size 8, all-zero buffer, three passes. -/
theorem C1_unchanged_buffer_never_written_witness :
    ∃ save w1, autosave_new al0 path0 zeros8 8 1 w0 = (some save, w1) ∧
      ∃ save2 w2,
        (autosave_thread [step_ok, step_noopen, step_ok] save w1 = .returned save2 w2 ∨
          autosave_thread [step_ok, step_noopen, step_ok] save w1 = .running save2 w2) ∧
        save2.buffer = zeros8 ∧ save2.retro_buffer = zeros8 ∧
        w2.fs = w0.fs ∧ w2.log = w0.log ∧
        file_calls w2.trace = file_calls w0.trace ∧
        w2.trace.count .memcpy = w0.trace.count .memcpy ∧
        ((∀ e ∈ [step_ok, step_noopen, step_ok], e.quit_late = false) →
          autosave_thread [step_ok, step_noopen, step_ok] save w1 = .running save2 w2 ∧
          w2.trace.count .memcmp = w0.trace.count .memcmp +
            [step_ok, step_noopen, step_ok].length) :=
  C1_unchanged_buffer_never_written al0 path0 zeros8 8 1 w0 [step_ok, step_noopen, step_ok]
    rfl rfl rfl (by decide)

/-- C2: when the live buffer is changed once to `b`, different from the snapshot, and the
stdio calls succeed, then for a worker that gets its locks, the next pass makes exactly one
`fwrite`, after which the file holds `b` (`bufsize` bytes) and the snapshot is `b`; the
passes after it make no stdio call at all, so over any number of further passes there is
exactly one write. When nothing requests `quit`, all the further passes supplied are made. -/
theorem C2_single_change_single_write (save : autosave) (w : World) (b : List Byte) (e : Step)
    (steps : List Step)
    (hu : unlocked save)
    (hsz : save.buffer.length = save.bufsize)
    (hb : b.length = save.bufsize) (hne : b ≠ save.buffer)
    (hopen : e.stdio.fopen_ok = true) (hwrite : e.stdio.fwrite_ret = save.bufsize)
    (hflush : e.stdio.fflush_ret = 0) (hclose : e.stdio.fclose_ret = 0)
    (hkeep : ∀ e2 ∈ steps, e2.retro_write = none) :
    ∃ save1 w1,
      autosave_thread_body e { save with retro_buffer := b } w = some (save1, w1) ∧
      writes w1.trace = writes w.trace + 1 ∧
      w1.fs save.path = some b ∧ b.length = save.bufsize ∧ save1.buffer = b ∧
      LogMsg.warn_failed ∉ w1.log.drop w.log.length ∧
      ∃ save2 w2,
        (autosave_thread_loop steps save1 w1 = .returned save2 w2 ∨
          autosave_thread_loop steps save1 w1 = .running save2 w2) ∧
        file_calls w2.trace = file_calls w1.trace ∧
        writes w2.trace = writes w.trace + 1 ∧
        w2.fs = w1.fs ∧ save2.buffer = b ∧ save2.retro_buffer = b ∧
        (save.quit = false → e.quit_late = false → (∀ e2 ∈ steps, e2.quit_late = false) →
          autosave_thread_loop steps save1 w1 = .running save2 w2 ∧
          w2.trace.count .memcmp = w1.trace.count .memcmp + steps.length) := by
  have hu1 : unlocked { save with retro_buffer := b } := hu
  have hd : differ { save with retro_buffer := b } = true :=
    (differ_iff { save with retro_buffer := b } ⟨hsz, hb⟩).mpr (fun h => hne h.symm)
  obtain ⟨s1, w1, hbody, hs1, htr, hlog, hfs⟩ := body_differ e _ w hu1 hd
  simp only [hopen, if_true] at htr hlog hfs
  have hcopy : memcpy save.buffer b save.bufsize = b := memcpy_sized _ _ _ hsz hb
  simp only [hcopy] at hs1 hfs
  have hnf : write_failed e.stdio { save with retro_buffer := b } = false := by
    simp [write_failed, hwrite, hflush, hclose]
  have hw1 : writes w1.trace = writes w.trace + 1 := by
    rw [htr]
    simp only [writes_append, writes_wait]
    simp [writes, Event.write]
  have hs1b : s1.buffer = b := by rw [hs1]
  obtain ⟨s2, w2, hres, h1, h2, h3, h4, h5, h6, h7⟩ := quiet_loop steps b s1 w1
    (by rw [hs1]; exact hu) hs1b (by rw [hs1]) (by rw [hs1]; exact hb) hkeep
  refine ⟨s1, w1, hbody, hw1, ?_, hb, hs1b, ?_, s2, w2, hres, h5, ?_, h3, h1, h2, ?_⟩
  · rw [hfs, hwrite]
    simp [← hb]
  · rw [hlog, hnf]
    simp
    split <;> simp
  · rw [← writes_file_calls, h5, writes_file_calls, hw1]
  · intro hq hql hall
    exact h7 (by rw [hs1]; simp [hq, hql]) hall

/-- Witness of C2: size 8, all-zero buffer, byte 3 set to 0xFF, three further passes. -/
theorem C2_single_change_single_write_witness :
    ∃ save1 w1,
      autosave_thread_body step_ok { sess0 with retro_buffer := mutated8 } w0
        = some (save1, w1) ∧
      writes w1.trace = writes w0.trace + 1 ∧
      w1.fs sess0.path = some mutated8 ∧ mutated8.length = sess0.bufsize ∧
      save1.buffer = mutated8 ∧
      LogMsg.warn_failed ∉ w1.log.drop w0.log.length ∧
      ∃ save2 w2,
        (autosave_thread_loop [step_ok, step_ok, step_ok] save1 w1 = .returned save2 w2 ∨
          autosave_thread_loop [step_ok, step_ok, step_ok] save1 w1 = .running save2 w2) ∧
        file_calls w2.trace = file_calls w1.trace ∧
        writes w2.trace = writes w0.trace + 1 ∧
        w2.fs = w1.fs ∧ save2.buffer = mutated8 ∧ save2.retro_buffer = mutated8 ∧
        (sess0.quit = false → step_ok.quit_late = false →
          (∀ e2 ∈ [step_ok, step_ok, step_ok], e2.quit_late = false) →
          autosave_thread_loop [step_ok, step_ok, step_ok] save1 w1 = .running save2 w2 ∧
          w2.trace.count .memcmp = w1.trace.count .memcmp +
            [step_ok, step_ok, step_ok].length) :=
  C2_single_change_single_write sess0 w0 mutated8 step_ok [step_ok, step_ok, step_ok]
    ⟨rfl, rfl⟩ (by decide) (by decide) (by decide) (by decide) (by decide) (by decide)
    (by decide) (by decide)

/-- C3: in a pass (of a worker that gets its locks) that finds the snapshot different from
the live buffer, the snapshot is overwritten with the live buffer whatever stdio answers
(open failure, short write, flush or close failure), and one `fopen` is attempted; if the
live buffer is not changed again, the next pass finds no difference and makes no stdio call:
files, log and snapshot stay. -/
theorem C3_snapshot_advances_without_retry (save : autosave) (w : World) (e e2 : Step)
    (hu : unlocked save) (hsz : sized save) (hne : save.buffer ≠ save.retro_buffer) :
    ∃ save1 w1,
      autosave_thread_body e save w = some (save1, w1) ∧
      save1.buffer = save.retro_buffer ∧ save1.retro_buffer = save.retro_buffer ∧
      opens w1.trace = opens w.trace + 1 ∧
      ∃ save2 w2,
        autosave_thread_body e2 save1 w1 = some (save2, w2) ∧
        file_calls w2.trace = file_calls w1.trace ∧
        w2.fs = w1.fs ∧ w2.log = w1.log ∧
        save2.buffer = save.retro_buffer := by
  have hd : differ save = true := (differ_iff save hsz).mpr hne
  obtain ⟨s1, w1, hbody, hs1, htr, -, -⟩ := body_differ e save w hu hd
  have hcopy : memcpy save.buffer save.retro_buffer save.bufsize = save.retro_buffer :=
    memcpy_sized _ _ _ hsz.1 hsz.2
  rw [hcopy] at hs1
  have hu1 : unlocked s1 := by rw [hs1]; exact hu
  have hd1 : differ s1 = false := by
    have := (differ_iff s1 (by rw [hs1]; exact ⟨hsz.2, hsz.2⟩)).not
    rw [hs1] at this ⊢
    simpa using this
  refine ⟨s1, w1, hbody, by rw [hs1], by rw [hs1], ?_, _, _, body_same e2 s1 w1 hu1 hd1,
    ?_, rfl, rfl, by rw [hs1]⟩
  · rw [htr]
    simp only [opens_append, opens_wait]
    cases e.stdio.fopen_ok <;> simp [opens, Event.open_]
  · simp only [file_calls_append, file_calls_wait]
    simp [file_calls, Event.stdio]

/-- Witness of C3: the changed size-8 session, a pass whose `fopen` fails, then a pass in
which stdio would succeed. -/
theorem C3_snapshot_advances_without_retry_witness :
    ∃ save1 w1,
      autosave_thread_body step_noopen sess1 w0 = some (save1, w1) ∧
      save1.buffer = sess1.retro_buffer ∧ save1.retro_buffer = sess1.retro_buffer ∧
      opens w1.trace = opens w0.trace + 1 ∧
      ∃ save2 w2,
        autosave_thread_body step_ok save1 w1 = some (save2, w2) ∧
        file_calls w2.trace = file_calls w1.trace ∧
        w2.fs = w1.fs ∧ w2.log = w1.log ∧
        save2.buffer = sess1.retro_buffer :=
  C3_snapshot_advances_without_retry sess1 w0 step_noopen step_ok ⟨rfl, rfl⟩ ⟨rfl, rfl⟩
    (by decide)

/-- C4 as stated fails: in a pass that finds a difference and whose `fopen` fails, nothing
is sent to the logging interface. -/
theorem C4_open_failure_not_reported :
    differ sess1 = true ∧ step_noopen.stdio.fopen_ok = false ∧
    ∃ save1 w1, autosave_thread_body step_noopen sess1 w0 = some (save1, w1) ∧
      w1.log = [] ∧ LogMsg.warn_failed ∉ w1.log := by
  refine ⟨by decide, rfl, ?_⟩
  obtain ⟨s1, w1, hbody, -, -, hlog, -⟩ :=
    body_differ step_noopen sess1 w0 ⟨rfl, rfl⟩ (by decide)
  refine ⟨s1, w1, hbody, ?_⟩
  have : w1.log = [] := by
    rw [hlog]; simp [step_noopen, w0]
  simp [this]

/-- C4, amended: in a pass (of a worker that gets its locks) that finds a difference, each
of a short write, a flush failure and a close failure, after a successful `fopen`, makes the
pass send the warning, right after its informational message. In all four cases, a failed
`fopen` included, the pass goes on to lines 115-121, waits there unless `quit` is set, and
the loop takes its next pass from the state this pass left. -/
theorem C4_write_failures_warn_and_continue (save : autosave) (w : World) (e : Step)
    (hu : unlocked save) (hd : differ save = true) :
    ∃ save1 w1,
      autosave_thread_body e save w = some (save1, w1) ∧
      (e.stdio.fopen_ok = true →
        (e.stdio.fwrite_ret ≠ save.bufsize ∨ e.stdio.fflush_ret ≠ 0 ∨ e.stdio.fclose_ret ≠ 0) →
        w1.log = w.log ++
          [if save.thread.first_log = true then LogMsg.autosaving save.path save.interval
            else LogMsg.sram_changed, LogMsg.warn_failed]) ∧
      save1.quit = (save.quit || e.quit_late) ∧
      (∃ tr, w1.trace = w.trace ++ tr ++
        (if save1.quit = true then [.cond_lock, .cond_unlock]
          else [.cond_lock,
            .scond_wait_timeout (wrap_int64 ((save.interval : Int) * 1000000)),
            .cond_unlock])) ∧
      (save.quit = false → ∀ es, autosave_thread_loop (e :: es) save w =
        autosave_thread_loop es (retro_store e.retro_write save1) w1) := by
  obtain ⟨s1, w1, hbody, hs1, htr, hlog, -⟩ := body_differ e save w hu hd
  have hq1 : s1.quit = (save.quit || e.quit_late) := by rw [hs1]
  refine ⟨s1, w1, hbody, ?_, hq1, ⟨_, by
    rw [htr, List.append_assoc _ _ (ite _ _ _), hq1]
    rfl⟩, ?_⟩
  · intro ho hf
    have hwf : write_failed e.stdio save = true := by
      simp only [write_failed, Bool.or_eq_true, bne_iff_ne, ne_eq]
      tauto
    rw [hlog]
    simp [ho, hwf]
  · intro hq es
    rw [autosave_thread_loop]
    simp [hq, hbody]

/-- Witness of C4 amended: the changed size-8 session and a short write of 5 bytes. -/
theorem C4_write_failures_warn_and_continue_witness :
    ∃ save1 w1,
      autosave_thread_body step_short sess1 w0 = some (save1, w1) ∧
      (step_short.stdio.fopen_ok = true →
        (step_short.stdio.fwrite_ret ≠ sess1.bufsize ∨ step_short.stdio.fflush_ret ≠ 0 ∨
          step_short.stdio.fclose_ret ≠ 0) →
        w1.log = w0.log ++
          [if sess1.thread.first_log = true then LogMsg.autosaving sess1.path sess1.interval
            else LogMsg.sram_changed, LogMsg.warn_failed]) ∧
      save1.quit = (sess1.quit || step_short.quit_late) ∧
      (∃ tr, w1.trace = w0.trace ++ tr ++
        (if save1.quit = true then [.cond_lock, .cond_unlock]
          else [.cond_lock,
            .scond_wait_timeout (wrap_int64 ((sess1.interval : Int) * 1000000)),
            .cond_unlock])) ∧
      (sess1.quit = false → ∀ es, autosave_thread_loop (step_short :: es) sess1 w0 =
        autosave_thread_loop es (retro_store step_short.retro_write save1) w1) :=
  C4_write_failures_warn_and_continue sess1 w0 step_short ⟨rfl, rfl⟩ (by decide)

/-- C5: when both allocations succeed, `autosave_new` returns a session whose snapshot is the
block of `size` bytes that `malloc(size)` gave, so `size` bytes long whatever the live
buffer, and, for a live buffer of length `size`, equal to it byte for byte; `bufsize`,
`interval` and `path` are the arguments and `quit` is false. When either allocation fails
it returns NULL. -/
theorem C5_autosave_new_result (al : Alloc) (path : String) (data : List Byte)
    (size interval : Nat) (w : World) :
    (al.calloc_ok = true → al.malloc_ok = true →
      ∃ save w1 block, autosave_new al path data size interval w = (some save, w1) ∧
        malloc al size = some block ∧ block.length = size ∧
        save.buffer = memcpy block data size ∧
        save.buffer.length = size ∧
        (data.length = size → save.buffer = data) ∧
        save.retro_buffer = data ∧
        save.bufsize = size ∧ save.interval = interval ∧ save.path = path ∧
        save.quit = false) ∧
    ((al.calloc_ok = false ∨ al.malloc_ok = false) →
      (autosave_new al path data size interval w).1 = none) := by
  refine ⟨fun hc hm => ?_, new_null al path data size interval w⟩
  refine ⟨_, _, (List.range size).map al.malloc_fill,
    new_ok al path data size interval w hc hm, by simp [malloc, hm], by simp, rfl, ?_, ?_,
    rfl, rfl, rfl, rfl, rfl⟩
  · simp [memcpy_length]
  · intro hlen
    exact memcpy_sized _ _ _ (by simp) hlen

/-- Witness of C5: size 8, all-zero live buffer, both allocations succeed. -/
theorem C5_autosave_new_result_witness :
    ∃ save w1 block, autosave_new al0 path0 zeros8 8 1 w0 = (some save, w1) ∧
      malloc al0 8 = some block ∧ block.length = 8 ∧
      save.buffer = memcpy block zeros8 8 ∧
      save.buffer.length = 8 ∧
      (zeros8.length = 8 → save.buffer = zeros8) ∧
      save.retro_buffer = zeros8 ∧
      save.bufsize = 8 ∧ save.interval = 1 ∧ save.path = path0 ∧ save.quit = false :=
  (C5_autosave_new_result al0 path0 zeros8 8 1 w0).1 rfl rfl

/-- C6 as stated fails: the copy of line 155 is made before the buffer lock exists, and the
`fwrite` of line 106 reads the snapshot after `autosave_unlock`. -/
theorem C6_snapshot_accessed_without_lock :
    (∃ save w1, autosave_new al0 path0 zeros8 8 1 w0 = (some save, w1) ∧
      w1.trace = [.calloc, .malloc 8, .memcpy_new, .slock_new, .slock_new, .scond_new,
        .sthread_create] ∧
      lock_scan Event.snapshot true false w1.trace = none) ∧
    (∃ save2 w2, autosave_thread_body step_ok sess1 w0 = some (save2, w2) ∧
      w2.trace = [.autosave_lock, .memcmp, .memcpy, .autosave_unlock, .fopen path0 true,
        .fwrite 8, .fflush, .fclose, .cond_lock, .scond_wait_timeout 1000000,
        .cond_unlock] ∧
      lock_scan Event.snapshot true false w2.trace = none) := by
  constructor
  · refine ⟨_, _, new_ok al0 path0 zeros8 8 1 w0 rfl rfl, ?_, ?_⟩
    · simp [w0]
    · simp [w0, lock_scan, Event.snapshot, held_after]
  · obtain ⟨s1, w1, hbody, -, htr, -, -⟩ :=
      body_differ step_ok sess1 w0 ⟨rfl, rfl⟩ (by decide)
    have h : w1.trace = [.autosave_lock, .memcmp, .memcpy, .autosave_unlock,
        .fopen path0 true, .fwrite 8, .fflush, .fclose, .cond_lock,
        .scond_wait_timeout 1000000, .cond_unlock] := by
      rw [htr]
      simp [w0, step_ok, sess1, sess0, wait_calls, wrap_int64]
    refine ⟨s1, w1, hbody, h, ?_⟩
    rw [h]
    simp [lock_scan, Event.snapshot, held_after]

/-- C6, amended: in every run of a session (`autosave_new`, then passes of the worker), the
compare of line 81 and the copy-over of line 84 are made while the buffer lock is held,
between `autosave_lock` and `autosave_unlock`; the copy of line 155 and the read of the
snapshot by the `fwrite` of line 106 are made while it is not held. -/
theorem C6_lock_covers_compare_and_copy (al : Alloc) (path : String) (data : List Byte)
    (size interval : Nat) (w : World) (steps : List Step)
    (hc : al.calloc_ok = true) (hm : al.malloc_ok = true) :
    ∃ save w1, autosave_new al path data size interval w = (some save, w1) ∧
      ∃ save2 w2 tr,
        (autosave_thread steps save w1 = .returned save2 w2 ∨
          autosave_thread steps save w1 = .running save2 w2) ∧
        w2.trace = w.trace ++ tr ∧
        lock_scan Event.compare_copy true false tr = some false ∧
        lock_scan Event.copy_new_write false false tr = some false := by
  refine ⟨_, _, new_ok al path data size interval w hc hm, ?_⟩
  simp only [autosave_thread]
  have key := loop_induct
    (fun _ s v => unlocked s ∧ ∃ tr, v.trace = w.trace ++ tr ∧
      lock_scan Event.compare_copy true false tr = some false ∧
      lock_scan Event.copy_new_write false false tr = some false) steps
    (by
      intro e _ k s v ⟨h1, tr, h2, h3, h4⟩ _
      obtain ⟨s1, v1, piece, hbody, hu1, htr, hp1, hp2⟩ := pass_scan e s v h1
      refine ⟨s1, v1, hbody, retro_store_unlocked _ _ hu1, tr ++ piece, ?_, ?_, ?_⟩
      · rw [htr, h2, List.append_assoc]
      · rw [lock_scan_append, h3]; exact hp1
      · rw [lock_scan_append, h4]; exact hp2)
    0
    { quit := false, lock := false, cond_lock := false, thread := { first_log := true },
      buffer := memcpy ((List.range size).map al.malloc_fill) data size,
      retro_buffer := data, path := path, bufsize := size, interval := interval }
    { w with trace := w.trace ++ [.calloc, .malloc size, .memcpy_new, .slock_new,
        .slock_new, .scond_new, .sthread_create] }
    ⟨⟨rfl, rfl⟩, _, rfl, by simp [lock_scan, held_after, Event.compare_copy],
      by simp [lock_scan, held_after, Event.copy_new_write]⟩
  obtain ⟨j, s2, w2, -, ⟨-, tr, h2, h3, h4⟩, hres⟩ := key
  refine ⟨s2, w2, tr, ?_, h2, h3, h4⟩
  rcases hres with ⟨h, _⟩ | ⟨h, _, _⟩
  · exact Or.inl h
  · exact Or.inr h

/-- Witness of C6 amended: size 8, the live buffer changed during the first wait. -/
theorem C6_lock_covers_compare_and_copy_witness :
    ∃ save w1, autosave_new al0 path0 zeros8 8 1 w0 = (some save, w1) ∧
      ∃ save2 w2 tr,
        (autosave_thread [{ step_ok with retro_write := some mutated8 }, step_ok] save w1
            = .returned save2 w2 ∨
          autosave_thread [{ step_ok with retro_write := some mutated8 }, step_ok] save w1
            = .running save2 w2) ∧
        w2.trace = w0.trace ++ tr ∧
        lock_scan Event.compare_copy true false tr = some false ∧
        lock_scan Event.copy_new_write false false tr = some false :=
  C6_lock_covers_compare_and_copy al0 path0 zeros8 8 1 w0
    [{ step_ok with retro_write := some mutated8 }, step_ok] rfl rfl

/-- C8: `autosave_free` on a null handle returns with the world exactly as it was, no call
made; so a second call on a handle nulled after the first destroy changes nothing. -/
theorem C8_free_null_is_noop (w : World) (handle : autosave) :
    autosave_free none w = some w ∧
    (autosave_free (some handle) w).bind (autosave_free none) =
      autosave_free (some handle) w := by
  refine ⟨rfl, ?_⟩
  cases autosave_free (some handle) w <;> rfl

/-- C9: when `quit` is true at the test at the top of the loop, the worker returns at once,
with no compare, no snapshot update and no stdio call, also when the live buffer differs
from the snapshot: session, files, log and trace are exactly as they were. And once `quit`
is true it stays true: no pass of the worker, no `autosave_lock` / `autosave_unlock` (which
is all `lock_autosave` / `unlock_autosave` do to a session) and no store into the live
buffer resets it. Lines 177-180 of `autosave_free` leave `quit` true, after which the worker
returns whatever passes are offered. -/
theorem C9_quit_stops_worker (save : autosave) (w : World) (steps : List Step)
    (hq : save.quit = true) :
    autosave_thread_loop steps save w = .returned save w ∧
    (∀ e save1 w1, autosave_thread_body e save w = some (save1, w1) → save1.quit = true) ∧
    (∀ save1, autosave_lock save = some save1 → save1.quit = true) ∧
    (autosave_unlock save).quit = true ∧
    (∀ b, (retro_store b save).quit = true) ∧
    (∀ (handle : autosave) (v : World), handle.cond_lock = false →
      ∃ handle1 v1, autosave_free_quit handle v = some (handle1, v1) ∧
        handle1.quit = true ∧
        ∀ steps2, autosave_thread_loop steps2 handle1 v1 = .returned handle1 v1) := by
  refine ⟨?_, ?_, ?_, hq, ?_, ?_⟩
  · unfold autosave_thread_loop
    simp [hq]
  · intro e s1 w1 h
    rw [body_quit e save w s1 w1 h, hq]
    rfl
  · intro s1 h
    simp only [autosave_lock, slock_lock] at h
    cases hl : save.lock <;> simp only [hl, Bool.false_eq_true, if_false, if_true] at h
    · simp only [Option.some.injEq] at h
      rw [← h]
      exact hq
    · cases h
  · intro b
    cases b <;> exact hq
  · intro handle v hc
    refine ⟨{ handle with quit := true, cond_lock := slock_unlock true },
      ((v.emit .cond_lock).emit .cond_unlock).emit .scond_signal,
      by simp [autosave_free_quit, slock_lock, hc], rfl, ?_⟩
    intro steps2
    unfold autosave_thread_loop
    simp

/-- Witness of C9: `quit` is set while the live buffer differs from the snapshot. -/
theorem C9_quit_stops_worker_witness :
    sess1_quit.buffer ≠ sess1_quit.retro_buffer ∧
    autosave_thread_loop [step_ok, step_ok] sess1_quit w0 = .returned sess1_quit w0 :=
  ⟨by decide, (C9_quit_stops_worker sess1_quit w0 [step_ok, step_ok] rfl).1⟩

/-- C10: in every pass (of a worker that gets its locks) the timed wait is entered exactly
when `quit` is false at line 117, under `cond_lock`, and its timeout is
`interval * 1000000` exactly: for a 32-bit unsigned `interval` the product does not wrap in
signed 64-bit arithmetic, being at most 4294967295000000, below 2^63. -/
theorem C10_wait_timeout_exact (save : autosave) (w : World) (e : Step)
    (hu : unlocked save) (hi : save.interval < 2 ^ 32) :
    ∃ save1 w1,
      autosave_thread_body e save w = some (save1, w1) ∧
      save1.quit = (save.quit || e.quit_late) ∧
      waits w1.trace = waits w.trace ++
        (if save1.quit = false then [(save.interval : Int) * 1000000] else []) ∧
      wrap_int64 ((save.interval : Int) * 1000000) = (save.interval : Int) * 1000000 ∧
      (save.interval : Int) * 1000000 ≤ 4294967295000000 ∧
      (4294967295000000 : Int) < 2 ^ 63 := by
  have hwrap := wrap_int64_interval save.interval hi
  have hbound : (save.interval : Int) * 1000000 ≤ 4294967295000000 := by
    norm_num at hi
    omega
  cases hd : differ save with
  | false =>
    refine ⟨_, _, body_same e save w hu hd, rfl, ?_, hwrap, hbound, by norm_num⟩
    simp only [waits_append, waits_wait_calls, hwrap]
    simp [waits]
  | true =>
    obtain ⟨s1, w1, hbody, hs1, htr, -, -⟩ := body_differ e save w hu hd
    refine ⟨s1, w1, hbody, by rw [hs1], ?_, hwrap, hbound, by norm_num⟩
    rw [htr, hs1]
    simp only [waits_append, waits_wait_calls, hwrap]
    cases e.stdio.fopen_ok <;> simp [waits]

/-- Witness of C10: the largest 32-bit interval, in a pass with a difference. -/
theorem C10_wait_timeout_exact_witness :
    ∃ save1 w1,
      autosave_thread_body step_ok { sess1 with interval := 4294967295 } w0
        = some (save1, w1) ∧
      save1.quit = (sess1.quit || step_ok.quit_late) ∧
      waits w1.trace = waits w0.trace ++
        (if save1.quit = false then [((4294967295 : Nat) : Int) * 1000000] else []) ∧
      wrap_int64 (((4294967295 : Nat) : Int) * 1000000) = ((4294967295 : Nat) : Int) * 1000000 ∧
      ((4294967295 : Nat) : Int) * 1000000 ≤ 4294967295000000 ∧
      (4294967295000000 : Int) < 2 ^ 63 :=
  C10_wait_timeout_exact { sess1 with interval := 4294967295 } w0 step_ok ⟨rfl, rfl⟩
    (by decide)

end Autosave
